import Mathlib

/-!
Shallow embedding of the `elven_parse` ELF decoder (Rust sources under
`src/`): the endian-aware primitive reader (`src/utils.rs`), the two file
header parsers (`src/file.rs` `FileHeader::parse` and `src/lib.rs`
`Elf::parse`), the program-header iterator (`src/program.rs`), the
section-header iterator (`src/section/mod.rs`) and the symbol-table
iterator (`src/section/symtab.rs`).

Modelling conventions:
* A Rust byte slice `&[u8]` is a `List Nat` (each element a byte value).
* Rust `usize`/`u64`/`u32`/`u16` values are `Nat` (the decoder only ever
  produces values below `2 ^ 64` from at most 8 bytes).
* `slice.get(a..b)` is `listGet?`; the panicking index `slice[a..b]` is
  modelled by the same bounds test, with the out-of-bounds case mapped to
  the explicit `Step.crash` outcome of an iterator step (a Rust panic).
* The host is the 64-bit target: the `#[cfg(target_pointer_width = "32")]`
  block of `FileHeader::parse` is compiled out, and `usize` is 8 bytes
  wide in `usize::endian_parse`.
* Fallible Rust functions returning `crate::Result` become
  `Except Error _`; the `?` operator becomes an explicit `match`.
-/

/-- Error enum from `src/lib.rs` (`BadElf`, `OffsetCalculationFailure`)
extended with the variants used by `src/file.rs`/`src/section/symtab.rs`
(`UnsupportedClass`; the remaining variants of the spec are not needed by
the embedded operations). -/
inductive Error where
  | BadElf
  | OffsetCalculationFailure
  | UnsupportedClass
deriving DecidableEq, Repr

/-- `ElfClass` from `src/file.rs`. -/
inductive ElfClass where
  | None
  | Class32
  | Class64
deriving DecidableEq, Repr

/-- `ElfData` from `src/file.rs`. -/
inductive ElfData where
  | None
  | ElfData2Lsb
  | ElfData2Msb
deriving DecidableEq, Repr

/-- `ElfOsAbi` from `src/file.rs`. -/
inductive ElfOsAbi where
  | Sysv | Hpux | Netbsd | Gnu | Solaris | Aix | Irix | Freebsd
  | Tru64 | Modesto | Openbsd | Armeabi | Arm | Standalone
deriving DecidableEq, Repr

/-- `ElfType` from `src/file.rs`. -/
inductive ElfType where
  | None
  | Relocatable
  | Executable
  | SharedObject
  | CoreFile
  | OsSpecific
  | CpuSpecific
deriving DecidableEq, Repr

/-- `ElfMachine` from `src/file.rs`. -/
inductive ElfMachine where
  | None
  | Intel80386
  | Amd64
  | Riscv
  | Arm
  | Bpf
  | UnDefined
deriving DecidableEq, Repr

/-- A borrowed byte buffer `&[u8]`. -/
abbrev Bytes := List Nat

/-- Rust `slice.get(a..b)`: `Some` of the sub-slice iff `a ≤ b ∧ b ≤ len`. -/
def listGet? (xs : Bytes) (a b : Nat) : Option Bytes :=
  if a ≤ b ∧ b ≤ xs.length then some ((xs.drop a).take (b - a)) else none

/-- Rust `slice.get(a..)`: `Some` of the tail iff `a ≤ len`. -/
def listDrop? (xs : Bytes) (a : Nat) : Option Bytes :=
  if a ≤ xs.length then some (xs.drop a) else none

/-- `uN::from_le_bytes`: little-endian value of a byte list. -/
def leVal (s : Bytes) : Nat := s.foldr (fun b acc => b + 256 * acc) 0

/-- `uN::from_be_bytes`: big-endian value of a byte list. -/
def beVal (s : Bytes) : Nat := leVal s.reverse

/-- The width-generic primitive decoder, `Integer::endian_parse` from
`src/utils.rs` (`w = 8` for `usize`, `4` for `u32`, `2` for `u16`): get
the range from the buffer (else `OffsetCalculationFailure`), require its
length to equal the width (the `try_into` of the source, else
`OffsetCalculationFailure`), then decode little-endian for
`ElfData2Lsb`/`None` and big-endian for `ElfData2Msb`. -/
def endianParse (w a b : Nat) (bytes : Bytes) (e_data : ElfData) : Except Error Nat :=
  match listGet? bytes a b with
  | none => .error .OffsetCalculationFailure
  | some s =>
    if s.length = w then
      .ok (match e_data with
        | .ElfData2Lsb => leVal s
        | .ElfData2Msb => beVal s
        | .None => leVal s)
    else .error .OffsetCalculationFailure

/-- `FileHeader` from `src/file.rs` (also the `ElfHeader` of `src/lib.rs`,
whose fields correspond one to one, with `e_shentrysize` named
`e_shentsize` here). -/
structure FileHeader where
  e_class : ElfClass
  e_data : ElfData
  e_abi : ElfOsAbi
  e_type : ElfType
  e_machine : ElfMachine
  e_entry : Nat
  e_phoff : Nat
  e_shoff : Nat
  e_flags : Nat
  e_ehsize : Nat
  e_phentsize : Nat
  e_phnum : Nat
  e_shentsize : Nat
  e_shnum : Nat
  e_shstrndx : Nat
deriving DecidableEq, Repr

/-- The 4-byte ELF magic `b"\x7FELF"`. -/
def elfMagic : Bytes := [0x7f, 0x45, 0x4c, 0x46]

/-- Class selection from byte 4 (`src/file.rs` lines 118-124 and the
identical `src/lib.rs` lines 171-177). -/
def elfClassOf (elf : Bytes) : ElfClass :=
  if elf[0x04]? = some 1 then .Class32
  else if elf[0x04]? = some 2 then .Class64
  else .None

/-- Data-encoding selection from byte 5 (`src/file.rs` lines 133-139). -/
def elfDataOf (elf : Bytes) : ElfData :=
  if elf[0x05]? = some 1 then .ElfData2Lsb
  else if elf[0x05]? = some 2 then .ElfData2Msb
  else .None

/-- OS-ABI table from byte 7 (`src/file.rs` lines 148-163). -/
def elfAbiOf (e : Nat) : ElfOsAbi :=
  match e with
  | 0 => .Sysv
  | 1 => .Hpux
  | 2 => .Netbsd
  | 3 => .Gnu
  | 6 => .Solaris
  | 8 => .Aix
  | 9 => .Irix
  | 10 => .Freebsd
  | 11 => .Tru64
  | 12 => .Modesto
  | 64 => .Armeabi
  | 97 => .Arm
  | 255 => .Standalone
  | _ => .Sysv

/-- Object-type match on the raw bytes 16-17 (`src/file.rs` lines 176-185):
fixed byte patterns, independent of the byte-order selector. -/
def elfTypeOf (elf : Bytes) : ElfType :=
  match listGet? elf 0x10 0x12 with
  | some [0x00, 0x00] => .None
  | some [0x01, 0x00] => .Relocatable
  | some [0x02, 0x00] => .Executable
  | some [0x03, 0x00] => .SharedObject
  | some [0x04, 0x00] => .CoreFile
  | some [0xfe, _] => .OsSpecific
  | some [0xff, _] => .CpuSpecific
  | _ => .None

/-- Machine-ISA match on the raw bytes 18-19 (`src/file.rs` lines 188-195):
fixed byte patterns, independent of the byte-order selector. -/
def elfMachineOf (elf : Bytes) : ElfMachine :=
  match listGet? elf 0x12 0x14 with
  | some [0x03, 0x00] => .Intel80386
  | some [0x3e, 0x00] => .Amd64
  | some [0x28, 0x00] => .Arm
  | some [0xf3, 0x00] => .Riscv
  | some [0xf7, 0x00] => .Bpf
  | _ => .UnDefined

/-- The trailing class-independent file-header fields from position `pos`
onward: flags (4 bytes), then the six 2-byte size/count/index fields
(`src/file.rs` lines 262-309; the identical `src/lib.rs` lines 293-340). -/
def restFields (pos : Nat) (cls : ElfClass) (dat : ElfData) (abi : ElfOsAbi)
    (ty : ElfType) (mach : ElfMachine) (e ph sh : Nat) (elf : Bytes) :
    Except Error FileHeader :=
  match endianParse 4 pos (pos + 0x04) elf dat with
  | .error er => .error er
  | .ok flags =>
    match endianParse 2 (pos + 0x04) (pos + 0x06) elf dat with
    | .error er => .error er
    | .ok ehsize =>
      match endianParse 2 (pos + 0x06) (pos + 0x08) elf dat with
      | .error er => .error er
      | .ok phentsize =>
        match endianParse 2 (pos + 0x08) (pos + 0x0a) elf dat with
        | .error er => .error er
        | .ok phnum =>
          match endianParse 2 (pos + 0x0a) (pos + 0x0c) elf dat with
          | .error er => .error er
          | .ok shentsize =>
            match endianParse 2 (pos + 0x0c) (pos + 0x0e) elf dat with
            | .error er => .error er
            | .ok shnum =>
              match endianParse 2 (pos + 0x0e) (pos + 0x10) elf dat with
              | .error er => .error er
              | .ok shstrndx =>
                .ok { e_class := cls, e_data := dat, e_abi := abi,
                      e_type := ty, e_machine := mach, e_entry := e,
                      e_phoff := ph, e_shoff := sh, e_flags := flags,
                      e_ehsize := ehsize, e_phentsize := phentsize,
                      e_phnum := phnum, e_shentsize := shentsize,
                      e_shnum := shnum, e_shstrndx := shstrndx }

/-- The 32-bit branch of `FileHeader::parse`'s class-dependent fields
(`src/file.rs` lines 236-260): three 4-byte reads via
`u32::endian_parse`, then the common tail from position `0x24`. -/
def fileFields32 (cls : ElfClass) (dat : ElfData) (abi : ElfOsAbi)
    (ty : ElfType) (mach : ElfMachine) (elf : Bytes) :
    Except Error FileHeader :=
  match endianParse 4 0x18 0x1c elf dat with
  | .error er => .error er
  | .ok e =>
    match endianParse 4 0x1c 0x20 elf dat with
    | .error er => .error er
    | .ok ph =>
      match endianParse 4 0x20 0x24 elf dat with
      | .error er => .error er
      | .ok sh => restFields 0x24 cls dat abi ty mach e ph sh elf

/-- The 64-bit/unknown branch of `FileHeader::parse`'s class-dependent
fields (`src/file.rs` lines 214-235): three 8-byte reads via
`usize::endian_parse`, then the common tail from position `0x30`. -/
def fileFields64 (cls : ElfClass) (dat : ElfData) (abi : ElfOsAbi)
    (ty : ElfType) (mach : ElfMachine) (elf : Bytes) :
    Except Error FileHeader :=
  match endianParse 8 0x18 0x20 elf dat with
  | .error er => .error er
  | .ok e =>
    match endianParse 8 0x20 0x28 elf dat with
    | .error er => .error er
    | .ok ph =>
      match endianParse 8 0x28 0x30 elf dat with
      | .error er => .error er
      | .ok sh => restFields 0x30 cls dat abi ty mach e ph sh elf

/-- The class-dependent entry/phoff/shoff fields of `FileHeader::parse`
(`src/file.rs` lines 204-260): the 32-bit class reads 4-byte fields,
the 64-bit and unknown classes read 8-byte fields. -/
def fileFields (cls : ElfClass) (dat : ElfData) (abi : ElfOsAbi)
    (ty : ElfType) (mach : ElfMachine) (elf : Bytes) :
    Except Error FileHeader :=
  match cls with
  | .Class32 => fileFields32 cls dat abi ty mach elf
  | _ => fileFields64 cls dat abi ty mach elf

/-- Per-class cursor advance of `src/lib.rs` (lines 254-258, 269-273,
283-287): 8 bytes for `Class64`/`None`, 4 bytes for `Class32`. -/
def libStep (cls : ElfClass) : Nat :=
  match cls with
  | .Class64 => 0x08
  | .Class32 => 0x04
  | .None => 0x08

/-- The entry/phoff/shoff fields of the monolithic `Elf::parse`
(`src/lib.rs` lines 250-291): every read goes through
`usize::endian_parse` (8-byte width) over a range whose length is the
per-class step — 4 for `Class32`, so the width check fails there. -/
def elfFields (cls : ElfClass) (dat : ElfData) (abi : ElfOsAbi)
    (ty : ElfType) (mach : ElfMachine) (elf : Bytes) :
    Except Error FileHeader :=
  match endianParse 8 0x18 (0x18 + libStep cls) elf dat with
  | .error er => .error er
  | .ok e =>
    match endianParse 8 (0x18 + libStep cls) (0x18 + libStep cls + libStep cls) elf dat with
    | .error er => .error er
    | .ok ph =>
      match endianParse 8 (0x18 + libStep cls + libStep cls)
          (0x18 + libStep cls + libStep cls + libStep cls) elf dat with
      | .error er => .error er
      | .ok sh =>
        restFields (0x18 + libStep cls + libStep cls + libStep cls)
          cls dat abi ty mach e ph sh elf

/-- The common head of both file-header parsers (`src/file.rs` lines
109-201 and the textually identical `src/lib.rs` lines 163-248): magic,
class byte, data byte, version byte 6, OS-ABI byte 7 (`BadElf` when the
byte is absent), object type, machine, and the second version field at
bytes 20-23; then the class-dependent tail `k`. -/
def parseHead (elf : Bytes)
    (k : ElfClass → ElfData → ElfOsAbi → ElfType → ElfMachine → Bytes →
      Except Error FileHeader) : Except Error FileHeader :=
  if listGet? elf 0x00 0x04 = some elfMagic then
    let cls := elfClassOf elf
    let dat := elfDataOf elf
    if elf[0x06]? = some 1 then
      match elf[0x07]? with
      | none => .error .BadElf
      | some ab =>
        if listGet? elf 0x14 0x18 = some [0x01, 0x00, 0x00, 0x00] then
          k cls dat (elfAbiOf ab) (elfTypeOf elf) (elfMachineOf elf) elf
        else .error .BadElf
    else .error .BadElf
  else .error .BadElf

/-- `FileHeader::parse` from `src/file.rs` (modular parser, 64-bit host:
the `cfg(target_pointer_width = "32")` check is compiled out). -/
def FileHeader.parse (elf : Bytes) : Except Error FileHeader :=
  parseHead elf fileFields

/-- `Elf::parse` from `src/lib.rs` (monolithic parser), returning its
`ElfHeader` under the shared `FileHeader` record (fields correspond one to
one). -/
def Elf.parse (elf : Bytes) : Except Error FileHeader :=
  parseHead elf elfFields

/-- `ProgramType` from `src/program.rs`. -/
inductive ProgramType where
  | None
  | PtNull
  | PtLoad
  | PtDynamic
  | PtInterp
  | PtNote
  | PtShlib
  | PtPhdr
  | PtTls
  | PtGnuEhFrame
  | PtGnuStack
  | PtGnuRelro
  | PtGnuProperty
  | PtOs
  | PtProc
deriving DecidableEq, Repr

/-- `Perm` from `src/program.rs`: the tuple `(read, write, exec)`
(`Perm.0` = read, `Perm.1` = write, `Perm.2` = exec). -/
structure Perm where
  r : Bool
  w : Bool
  x : Bool
deriving DecidableEq, Repr

/-- `ProgramHeader` from `src/program.rs`. -/
structure ProgramHeader where
  p_type : ProgramType
  p_flags : Perm
  p_offset : Nat
  p_vaddr : Nat
  p_paddr : Nat
  p_filesz : Nat
  p_memsz : Nat
  p_align : Nat
deriving DecidableEq, Repr

/-- `ProgramHeader::new` from `src/program.rs` (also its `Default`). -/
def ProgramHeader.new : ProgramHeader :=
  { p_type := .None, p_flags := { r := false, w := false, x := false },
    p_offset := 0, p_vaddr := 0, p_paddr := 0,
    p_filesz := 0, p_memsz := 0, p_align := 0 }

/-- Segment-type match on the raw bytes 0-3 of a program-header entry
(`src/program.rs` lines 121-136): exact little-endian byte patterns and
the GNU markers first, then the OS (`0x60..=0x6f`) and processor
(`0x70..=0x7f`) ranges keyed off the high byte. -/
def programTypeOf (elf : Bytes) : ProgramType :=
  match listGet? elf 0x00 0x04 with
  | some [0x00, 0x00, 0x00, 0x00] => .PtNull
  | some [0x01, 0x00, 0x00, 0x00] => .PtLoad
  | some [0x02, 0x00, 0x00, 0x00] => .PtDynamic
  | some [0x03, 0x00, 0x00, 0x00] => .PtInterp
  | some [0x04, 0x00, 0x00, 0x00] => .PtNote
  | some [0x05, 0x00, 0x00, 0x00] => .PtShlib
  | some [0x06, 0x00, 0x00, 0x00] => .PtPhdr
  | some [0x50, 0xe5, 0x74, 0x64] => .PtGnuEhFrame
  | some [0x51, 0xe5, 0x74, 0x64] => .PtGnuStack
  | some [0x52, 0xe5, 0x74, 0x64] => .PtGnuRelro
  | some [0x53, 0xe5, 0x74, 0x64] => .PtGnuProperty
  | some [_, _, _, d] =>
    if 0x60 ≤ d ∧ d ≤ 0x6f then .PtOs
    else if 0x70 ≤ d ∧ d ≤ 0x7f then .PtProc
    else .None
  | _ => .None

/-- Permission triple decoded from a flags word (`src/program.rs` lines
160-163 and 171-174): `PF_X = 1`, `PF_W = 2`, `PF_R = 4`, each tested
with `flags & bit != 0`. -/
def permOf (flags : Nat) : Perm :=
  { r := flags.testBit 2, w := flags.testBit 1, x := flags.testBit 0 }

/-- `ProgramHeader::parse` from `src/program.rs` (lines 118-200): segment
type from bytes 0-3, then the class-branched fields — 32-bit layout
`{offset, vaddr, paddr, filesz, memsz, flags, align}` at 4-byte width,
64-bit layout `{flags, offset, vaddr, paddr, filesz, memsz, align}` at
8-byte width (flags 4 bytes); no class branch runs for `ElfClass.None`. -/
def ProgramHeader.parse (self : ProgramHeader) (elf : Bytes)
    (cls : ElfClass) (dat : ElfData) : Except Error ProgramHeader :=
  let self := { self with p_type := programTypeOf elf }
  match cls with
  | .Class32 =>
    match endianParse 4 0x04 0x08 elf dat with
    | .error er => .error er
    | .ok off =>
      match endianParse 4 0x08 0x0c elf dat with
      | .error er => .error er
      | .ok vaddr =>
        match endianParse 4 0x0c 0x10 elf dat with
        | .error er => .error er
        | .ok paddr =>
          match endianParse 4 0x10 0x14 elf dat with
          | .error er => .error er
          | .ok filesz =>
            match endianParse 4 0x14 0x18 elf dat with
            | .error er => .error er
            | .ok memsz =>
              match endianParse 4 0x18 0x1c elf dat with
              | .error er => .error er
              | .ok flags =>
                match endianParse 4 0x1c 0x20 elf dat with
                | .error er => .error er
                | .ok align =>
                  .ok { self with
                        p_offset := off
                        p_vaddr := vaddr
                        p_paddr := paddr
                        p_filesz := filesz
                        p_memsz := memsz
                        p_flags := permOf flags
                        p_align := align }
  | .Class64 =>
    match endianParse 4 0x04 0x08 elf dat with
    | .error er => .error er
    | .ok flags =>
      match endianParse 8 0x08 0x10 elf dat with
      | .error er => .error er
      | .ok off =>
        match endianParse 8 0x10 0x18 elf dat with
        | .error er => .error er
        | .ok vaddr =>
          match endianParse 8 0x18 0x20 elf dat with
          | .error er => .error er
          | .ok paddr =>
            match endianParse 8 0x20 0x28 elf dat with
            | .error er => .error er
            | .ok filesz =>
              match endianParse 8 0x28 0x30 elf dat with
              | .error er => .error er
              | .ok memsz =>
                match endianParse 8 0x30 0x38 elf dat with
                | .error er => .error er
                | .ok align =>
                  .ok { self with
                        p_flags := permOf flags
                        p_offset := off
                        p_vaddr := vaddr
                        p_paddr := paddr
                        p_filesz := filesz
                        p_memsz := memsz
                        p_align := align }
  | .None => .ok self

/-- Outcome of one `Iterator::next` call: `yield` (a `Some(item)` with the
successor iterator state), `done` (a `None` return), or `crash`
(an out-of-bounds panicking slice index — the Rust call aborts). -/
inductive Step (σ α : Type) where
  | yield : σ → α → Step σ α
  | done : Step σ α
  | crash : Step σ α
deriving DecidableEq, Repr

/-- `ProgramIterator` from `src/program.rs` (the source field `class` is
named `e_class` here: `class` is a Lean keyword). -/
structure ProgramIterator where
  program_header : ProgramHeader
  offset : Nat
  phentsize : Nat
  phnum : Nat
  e_class : ElfClass
  e_data : ElfData
  elf : Bytes
deriving DecidableEq, Repr

/-- `ProgramIterator::new` from `src/program.rs` (lines 245-261). -/
def ProgramIterator.new (e_phoff : Nat) (e_phentsize e_phnum : Nat)
    (cls : ElfClass) (dat : ElfData) (elf : Bytes) : ProgramIterator :=
  { program_header := ProgramHeader.new, offset := e_phoff,
    phentsize := e_phentsize, phnum := e_phnum,
    e_class := cls, e_data := dat, elf := elf }

/-- `ProgramIterator::next` from `src/program.rs` (lines 220-243): `None`
when `phnum = 0`; else the panicking slice
`elf[offset..offset + phentsize]` (crash when out of bounds), parse the
entry (`.ok()?` turns a parse error into `None` with the state
unchanged), then advance the offset and decrement the count. -/
def ProgramIterator.next (s : ProgramIterator) :
    Step ProgramIterator ProgramHeader :=
  if s.phnum = 0 then .done
  else
    match listGet? s.elf s.offset (s.offset + s.phentsize) with
    | none => .crash
    | some sub =>
      match s.program_header.parse sub s.e_class s.e_data with
      | .error _ => .done
      | .ok ph =>
        .yield { s with
                 program_header := ph
                 offset := s.offset + s.phentsize
                 phnum := s.phnum - 1 } ph

/-- The items produced by up to `n` calls of `ProgramIterator::next`,
stopping at the first non-`yield` outcome. -/
def progCollect : Nat → ProgramIterator → List ProgramHeader
  | 0, _ => []
  | n + 1, s =>
    match s.next with
    | .yield s' a => a :: progCollect n s'
    | _ => []

/-- `SectionType` from `src/section/mod.rs`. -/
inductive SectionType where
  | None
  | ShtNull
  | ShtProgBits
  | ShtSymTab
  | ShtStrTab
  | ShtRela
  | ShtHash
  | ShtDynamic
  | ShtNotes
  | ShtNoBits
  | ShtRel
  | ShtShlib
  | ShtDynSym
  | ShtInitArray
  | ShtFInitArray
  | ShtPreInitArray
  | ShtGroup
  | ShtSymTabShndx
  | ShtRelr
  | ShtNum
  | ShtOs
  | ShtGnuAttributes
  | ShtGnuHash
  | ShtGnuLibList
  | ShtProc
  | ShtUser
deriving DecidableEq, Repr

/-- `SectionFlags` from `src/section/mod.rs`: a newtype over the flags
word. -/
structure SectionFlags where
  val : Nat
deriving DecidableEq, Repr

/-- `SectionHeader` from `src/section/mod.rs`. -/
structure SectionHeader where
  sh_name : Nat
  sh_type : SectionType
  sh_flags : SectionFlags
  sh_addr : Nat
  sh_offset : Nat
  sh_size : Nat
  sh_link : Nat
  sh_info : Nat
  sh_addralign : Nat
  sh_entsize : Nat
  sh_ndx : Nat
deriving DecidableEq, Repr

/-- The derived `SectionHeader::default()` (all fields zero). -/
def SectionHeader.init : SectionHeader :=
  { sh_name := 0, sh_type := .None, sh_flags := { val := 0 },
    sh_addr := 0, sh_offset := 0, sh_size := 0, sh_link := 0,
    sh_info := 0, sh_addralign := 0, sh_entsize := 0, sh_ndx := 0 }

/-- Section-type match on the raw bytes 4-7 of a section-header entry
(`src/section/mod.rs` lines 163-190): exact byte patterns (the GNU types
first), then the OS/processor/application arms keyed off the high byte
being `0x06`/`0x07`/`0x08`. -/
def sectionTypeOf (elf : Bytes) : SectionType :=
  match listGet? elf 0x04 0x08 with
  | some [0x00, 0x00, 0x00, 0x00] => .ShtNull
  | some [0x01, 0x00, 0x00, 0x00] => .ShtProgBits
  | some [0x02, 0x00, 0x00, 0x00] => .ShtSymTab
  | some [0x03, 0x00, 0x00, 0x00] => .ShtStrTab
  | some [0x04, 0x00, 0x00, 0x00] => .ShtRela
  | some [0x05, 0x00, 0x00, 0x00] => .ShtHash
  | some [0x06, 0x00, 0x00, 0x00] => .ShtDynamic
  | some [0x07, 0x00, 0x00, 0x00] => .ShtNotes
  | some [0x08, 0x00, 0x00, 0x00] => .ShtNoBits
  | some [0x09, 0x00, 0x00, 0x00] => .ShtRel
  | some [0x0a, 0x00, 0x00, 0x00] => .ShtShlib
  | some [0x0b, 0x00, 0x00, 0x00] => .ShtDynSym
  | some [0x0e, 0x00, 0x00, 0x00] => .ShtInitArray
  | some [0x0f, 0x00, 0x00, 0x00] => .ShtFInitArray
  | some [0x10, 0x00, 0x00, 0x00] => .ShtPreInitArray
  | some [0x11, 0x00, 0x00, 0x00] => .ShtGroup
  | some [0x12, 0x00, 0x00, 0x00] => .ShtSymTabShndx
  | some [0x13, 0x00, 0x00, 0x00] => .ShtRelr
  | some [0x14, 0x00, 0x00, 0x00] => .ShtNum
  | some [0xf5, 0xff, 0xff, 0x06] => .ShtGnuAttributes
  | some [0xf6, 0xff, 0xff, 0x06] => .ShtGnuHash
  | some [0xf7, 0xff, 0xff, 0x06] => .ShtGnuLibList
  | some [_, _, _, 0x06] => .ShtOs
  | some [_, _, _, 0x07] => .ShtProc
  | some [_, _, _, 0x08] => .ShtUser
  | _ => .None

/-- `SectionHeader::parse` from `src/section/mod.rs` (lines 153-248):
name offset (4 bytes, may fail), section type from the raw bytes 4-7,
then the class-branched fields — 4-byte widths for 32-bit, 8-byte widths
for 64-bit (`sh_link`/`sh_info` stay 4-byte in both); no class branch
runs for `ElfClass.None`. -/
def SectionHeader.parse (self : SectionHeader) (elf : Bytes)
    (cls : ElfClass) (dat : ElfData) : Except Error SectionHeader :=
  match endianParse 4 0x00 0x04 elf dat with
  | .error er => .error er
  | .ok nm =>
    let self := { self with sh_name := nm, sh_type := sectionTypeOf elf }
    match cls with
    | .Class32 =>
      match endianParse 4 0x08 0x0c elf dat with
      | .error er => .error er
      | .ok flags =>
        match endianParse 4 0x0c 0x10 elf dat with
        | .error er => .error er
        | .ok addr =>
          match endianParse 4 0x10 0x14 elf dat with
          | .error er => .error er
          | .ok off =>
            match endianParse 4 0x14 0x18 elf dat with
            | .error er => .error er
            | .ok size =>
              match endianParse 4 0x18 0x1c elf dat with
              | .error er => .error er
              | .ok link =>
                match endianParse 4 0x1c 0x20 elf dat with
                | .error er => .error er
                | .ok info =>
                  match endianParse 4 0x20 0x24 elf dat with
                  | .error er => .error er
                  | .ok addralign =>
                    match endianParse 4 0x24 0x28 elf dat with
                    | .error er => .error er
                    | .ok entsize =>
                      .ok { self with
                            sh_flags := { val := flags }
                            sh_addr := addr
                            sh_offset := off
                            sh_size := size
                            sh_link := link
                            sh_info := info
                            sh_addralign := addralign
                            sh_entsize := entsize }
    | .Class64 =>
      match endianParse 8 0x08 0x10 elf dat with
      | .error er => .error er
      | .ok flags =>
        match endianParse 8 0x10 0x18 elf dat with
        | .error er => .error er
        | .ok addr =>
          match endianParse 8 0x18 0x20 elf dat with
          | .error er => .error er
          | .ok off =>
            match endianParse 8 0x20 0x28 elf dat with
            | .error er => .error er
            | .ok size =>
              match endianParse 4 0x28 0x2c elf dat with
              | .error er => .error er
              | .ok link =>
                match endianParse 4 0x2c 0x30 elf dat with
                | .error er => .error er
                | .ok info =>
                  match endianParse 8 0x30 0x38 elf dat with
                  | .error er => .error er
                  | .ok addralign =>
                    match endianParse 8 0x38 0x40 elf dat with
                    | .error er => .error er
                    | .ok entsize =>
                      .ok { self with
                            sh_flags := { val := flags }
                            sh_addr := addr
                            sh_offset := off
                            sh_size := size
                            sh_link := link
                            sh_info := info
                            sh_addralign := addralign
                            sh_entsize := entsize }
    | .None => .ok self

/-- `SectionIterator` from `src/section/mod.rs` (the source field `class`
is named `e_class` here: `class` is a Lean keyword). -/
structure SectionIterator where
  ndx : Nat
  section_header : SectionHeader
  offset : Nat
  shentsize : Nat
  shnum : Nat
  e_class : ElfClass
  e_data : ElfData
  elf : Bytes
deriving DecidableEq, Repr

/-- `SectionIterator::new` from `src/section/mod.rs` (lines 320-343). -/
def SectionIterator.new (e_shoff : Nat) (e_shentsize e_shnum : Nat)
    (cls : ElfClass) (dat : ElfData) (elf : Bytes) : SectionIterator :=
  { ndx := 0, section_header := SectionHeader.init, offset := e_shoff,
    shentsize := e_shentsize, shnum := e_shnum,
    e_class := cls, e_data := dat, elf := elf }

/-- `SectionIterator::next` from `src/section/mod.rs` (lines 287-318):
`None` when `shnum = 0`; else the panicking slice
`elf[offset..offset + shentsize]` (crash when out of bounds), parse the
entry (`.ok()?` turns a parse error into `None` with the state
unchanged), advance offset, decrement the count, then overwrite the
entry's `sh_ndx` with the traversal ordinal and bump it. -/
def SectionIterator.next (s : SectionIterator) :
    Step SectionIterator SectionHeader :=
  if s.shnum = 0 then .done
  else
    match listGet? s.elf s.offset (s.offset + s.shentsize) with
    | none => .crash
    | some sub =>
      match s.section_header.parse sub s.e_class s.e_data with
      | .error _ => .done
      | .ok sh =>
        let out := { sh with sh_ndx := s.ndx }
        .yield { s with
                 section_header := out
                 offset := s.offset + s.shentsize
                 shnum := s.shnum - 1
                 ndx := s.ndx + 1 } out

/-- The items produced by up to `n` calls of `SectionIterator::next`,
stopping at the first non-`yield` outcome. -/
def secCollect : Nat → SectionIterator → List SectionHeader
  | 0, _ => []
  | n + 1, s =>
    match s.next with
    | .yield s' a => a :: secCollect n s'
    | _ => []

/-- `SymType` from `src/section/symtab.rs`. -/
inductive SymType where
  | None
  | Object
  | Func
  | Section
  | File
  | Common
  | Tls
  | LoOs
  | HiOs
  | LoProc
  | HiProc
deriving DecidableEq, Repr

/-- `From<u8> for SymType` from `src/section/symtab.rs` (lines 148-167). -/
def symTypeOf (value : Nat) : SymType :=
  match value with
  | 0 => .None
  | 1 => .Object
  | 2 => .Func
  | 3 => .Section
  | 4 => .File
  | 5 => .Common
  | 6 => .Tls
  | 10 => .LoOs
  | 11 => .LoOs
  | 12 => .HiOs
  | 13 => .LoProc
  | 14 => .LoProc
  | 15 => .HiProc
  | _ => .None

/-- `SymTabEnt` from `src/section/symtab.rs`. -/
structure SymTabEnt where
  st_name : Nat
  st_value : Nat
  st_size : Nat
  st_info : SymType
  st_other : Nat
  st_shndx : Nat
deriving DecidableEq, Repr

/-- The derived `SymTabEnt::default()` (all fields zero). -/
def SymTabEnt.init : SymTabEnt :=
  { st_name := 0, st_value := 0, st_size := 0, st_info := .None,
    st_other := 0, st_shndx := 0 }

/-- Modelled from the spec: the `u8`/`u64` `Integer::endian_parse`
instances used by `SymTabEnt::parse` are not under `src/` (only the
`usize`/`u32`/`u16` instances are, in `src/utils.rs`); per spec section
4.1 the primitive decoder at widths 1 and 8 behaves identically to the
given instances, so they are the width-generic `endianParse` at `w = 1`
and `w = 8`. -/
def u8EndianParse (a b : Nat) (bytes : Bytes) (dat : ElfData) :
    Except Error Nat := endianParse 1 a b bytes dat

/-- Modelled from the spec: see `u8EndianParse`. -/
def u64EndianParse (a b : Nat) (bytes : Bytes) (dat : ElfData) :
    Except Error Nat := endianParse 8 a b bytes dat

/-- `SymTabEnt::parse` from `src/section/symtab.rs` (lines 114-146): the
4-byte name first, then the class-dependent field layout — 32-bit order
`{value, size, info, other, shndx}` at `{4,4,1,1,2}` bytes from offset 4,
64-bit order `{info, other, shndx, value, size}` at `{1,1,2,8,8}` bytes
from offset 4; class `None` fails with `UnsupportedClass`. -/
def SymTabEnt.parse (self : SymTabEnt) (elf : Bytes)
    (cls : ElfClass) (dat : ElfData) : Except Error SymTabEnt :=
  match endianParse 4 0x0 0x4 elf dat with
  | .error er => .error er
  | .ok nm =>
    let self := { self with st_name := nm }
    match cls with
    | .Class32 =>
      match endianParse 4 0x4 0x8 elf dat with
      | .error er => .error er
      | .ok v =>
        match endianParse 4 0x8 0xc elf dat with
        | .error er => .error er
        | .ok sz =>
          match u8EndianParse 0xc 0xd elf dat with
          | .error er => .error er
          | .ok info =>
            match u8EndianParse 0xd 0xe elf dat with
            | .error er => .error er
            | .ok oth =>
              match endianParse 2 0xe 0x10 elf dat with
              | .error er => .error er
              | .ok ndx =>
                .ok { self with
                      st_value := v
                      st_size := sz
                      st_info := symTypeOf info
                      st_other := oth
                      st_shndx := ndx }
    | .Class64 =>
      match u8EndianParse 0x4 0x5 elf dat with
      | .error er => .error er
      | .ok info =>
        match u8EndianParse 0x5 0x6 elf dat with
        | .error er => .error er
        | .ok oth =>
          match endianParse 2 0x6 0x8 elf dat with
          | .error er => .error er
          | .ok ndx =>
            match u64EndianParse 0x8 0x10 elf dat with
            | .error er => .error er
            | .ok v =>
              match u64EndianParse 0x10 0x18 elf dat with
              | .error er => .error er
              | .ok sz =>
                .ok { self with
                      st_info := symTypeOf info
                      st_other := oth
                      st_shndx := ndx
                      st_value := v
                      st_size := sz }
    | .None => .error .UnsupportedClass

/-- `SymTabIterator` from `src/section/symtab.rs` (the source field
`class` is named `e_class` here: `class` is a Lean keyword). -/
structure SymTabIterator where
  sh : Option SectionHeader
  symnum : Nat
  e_class : ElfClass
  e_data : ElfData
  elf : Bytes
deriving DecidableEq, Repr

/-- `SymTabIterator::new` from `src/section/symtab.rs` (lines 76-92). -/
def SymTabIterator.new (sh : Option SectionHeader) (cls : ElfClass)
    (dat : ElfData) (elf : Bytes) : SymTabIterator :=
  { sh := sh, symnum := 0, e_class := cls, e_data := dat, elf := elf }

/-- `SymTabIterator::next` from `src/section/symtab.rs` (lines 94-112):
`None` when no section is attached; else the panicking slice
`elf[sh_offset..sh_offset + sh_size]` (crash when out of bounds), then
`data.get(symnum * sh_entsize..)` (`None` past the end), increment
`symnum`, and parse a fresh default entry from the tail (`.ok()?` turns a
parse error into `None`). -/
def SymTabIterator.next (s : SymTabIterator) :
    Step SymTabIterator SymTabEnt :=
  match s.sh with
  | none => .done
  | some symtab =>
    match listGet? s.elf symtab.sh_offset (symtab.sh_offset + symtab.sh_size) with
    | none => .crash
    | some sec =>
      match listDrop? sec (s.symnum * symtab.sh_entsize) with
      | none => .done
      | some tail =>
        match SymTabEnt.init.parse tail s.e_class s.e_data with
        | .error _ => .done
        | .ok ent => .yield { s with symnum := s.symnum + 1 } ent

/-- The items produced by up to `n` calls of `SymTabIterator::next`,
stopping at the first non-`yield` outcome. -/
def symCollect : Nat → SymTabIterator → List SymTabEnt
  | 0, _ => []
  | n + 1, s =>
    match s.next with
    | .yield s' a => a :: symCollect n s'
    | _ => []

deriving instance DecidableEq for Except

/-- ELF32 on-disk symbol entry for the logical record
`(nm, v, sz, info, oth, ndx)`: little-endian layout
`{name(4), value(4), size(4), info(1), other(1), shndx(2)}`
(`uN::to_le_bytes` written out per byte). -/
def encodeSym32 (nm v sz info oth ndx : Nat) : Bytes :=
  [nm % 256, nm / 256 % 256, nm / 65536 % 256, nm / 16777216 % 256,
   v % 256, v / 256 % 256, v / 65536 % 256, v / 16777216 % 256,
   sz % 256, sz / 256 % 256, sz / 65536 % 256, sz / 16777216 % 256,
   info, oth, ndx % 256, ndx / 256 % 256]

/-- ELF64 on-disk symbol entry for the same logical record: little-endian
layout `{name(4), info(1), other(1), shndx(2), value(8), size(8)}`. -/
def encodeSym64 (nm v sz info oth ndx : Nat) : Bytes :=
  [nm % 256, nm / 256 % 256, nm / 65536 % 256, nm / 16777216 % 256,
   info, oth, ndx % 256, ndx / 256 % 256,
   v % 256, v / 256 % 256, v / 65536 % 256, v / 16777216 % 256,
   v / 4294967296 % 256, v / 1099511627776 % 256,
   v / 281474976710656 % 256, v / 72057594037927936 % 256,
   sz % 256, sz / 256 % 256, sz / 65536 % 256, sz / 16777216 % 256,
   sz / 4294967296 % 256, sz / 1099511627776 % 256,
   sz / 281474976710656 % 256, sz / 72057594037927936 % 256]

/-- A minimal well-formed 64-bit little-endian ELF header (64 bytes):
class 2, data 1, both version fields 1, type Executable, machine Amd64,
entry point the marker `0x0102030405060708` encoded little-endian. -/
def elf64le : Bytes :=
  [0x7f, 0x45, 0x4c, 0x46, 2, 1, 1, 0, 0, 0, 0, 0, 0, 0, 0, 0,
   0x02, 0x00, 0x3e, 0x00, 0x01, 0x00, 0x00, 0x00,
   0x08, 0x07, 0x06, 0x05, 0x04, 0x03, 0x02, 0x01,
   0x40, 0, 0, 0, 0, 0, 0, 0,
   0, 0, 0, 0, 0, 0, 0, 0,
   0, 0, 0, 0,
   0x40, 0, 0x38, 0, 1, 0, 0x40, 0, 0, 0, 0, 0]

/-- The same header re-encoded big-endian (64 bytes): data byte 2, every
multi-byte field byte-reversed — bytes 16-17 are `[0x00, 0x02]` (type 2
big-endian), bytes 18-19 `[0x00, 0x3e]` (machine 0x3e big-endian), entry
point the marker `0x0102030405060708` encoded big-endian. The second
version field stays `[1, 0, 0, 0]`: the source compares those raw bytes
against the little-endian pattern regardless of the selector. -/
def elf64be : Bytes :=
  [0x7f, 0x45, 0x4c, 0x46, 2, 2, 1, 0, 0, 0, 0, 0, 0, 0, 0, 0,
   0x00, 0x02, 0x00, 0x3e, 0x01, 0x00, 0x00, 0x00,
   0x01, 0x02, 0x03, 0x04, 0x05, 0x06, 0x07, 0x08,
   0, 0, 0, 0, 0, 0, 0x40, 0,
   0, 0, 0, 0, 0, 0, 0, 0,
   0, 0, 0, 0,
   0, 0x40, 0, 0x38, 0, 1, 0, 0x40, 0, 0, 0, 0]

/-- The header `FileHeader::parse` produces on `elf64be`. -/
def hdr64be : FileHeader :=
  { e_class := .Class64, e_data := .ElfData2Msb, e_abi := .Sysv,
    e_type := .None, e_machine := .UnDefined,
    e_entry := 0x0102030405060708, e_phoff := 0x4000, e_shoff := 0,
    e_flags := 0, e_ehsize := 0x40, e_phentsize := 0x38, e_phnum := 1,
    e_shentsize := 0x40, e_shnum := 0, e_shstrndx := 0 }

/-- A minimal well-formed 32-bit little-endian ELF header (52 bytes). -/
def elf32le : Bytes :=
  [0x7f, 0x45, 0x4c, 0x46, 1, 1, 1, 0, 0, 0, 0, 0, 0, 0, 0, 0,
   0x02, 0x00, 0x03, 0x00, 0x01, 0x00, 0x00, 0x00,
   0x10, 0, 0, 0,
   0x34, 0, 0, 0,
   0, 0, 0, 0,
   0, 0, 0, 0,
   0x34, 0, 0x20, 0, 1, 0, 0x28, 0, 0, 0, 0, 0]

/-- The header `FileHeader::parse` produces on `elf32le`. -/
def hdr32le : FileHeader :=
  { e_class := .Class32, e_data := .ElfData2Lsb, e_abi := .Sysv,
    e_type := .Executable, e_machine := .Intel80386,
    e_entry := 0x10, e_phoff := 0x34, e_shoff := 0,
    e_flags := 0, e_ehsize := 0x34, e_phentsize := 0x20, e_phnum := 1,
    e_shentsize := 0x28, e_shnum := 0, e_shstrndx := 0 }

/-- An all-zero 64-bit program-header entry as a buffer: exactly one
56-byte entry. -/
def truncTable : Bytes := List.replicate 56 0

/-- The all-zero 64-bit program header (`PT_NULL`, everything default). -/
def phNull64 : ProgramHeader := { ProgramHeader.new with p_type := .PtNull }

/-- A program-header iterator over `truncTable` configured with `phnum = 2`
although the buffer holds only one 56-byte entry: the table is truncated
mid-way. -/
def truncIter0 : ProgramIterator :=
  ProgramIterator.new 0 56 2 .Class64 .ElfData2Lsb truncTable

/-- `truncIter0` after its first (successful) `next` call. -/
def truncIter1 : ProgramIterator :=
  { truncIter0 with program_header := phNull64, offset := 56, phnum := 1 }

/-- A symbol-table iterator whose section has `sh_entsize = 0`: a 24-byte
all-zero section fully inside a 24-byte buffer, so each entry decodes and
the entry offset `symnum * 0` never advances. -/
def symZeroEnt : SymTabIterator :=
  SymTabIterator.new (some { SectionHeader.init with sh_size := 24 })
    .Class64 .ElfData2Lsb (List.replicate 24 0)

/-- Every error produced by the primitive decoder is
`OffsetCalculationFailure` (both failure points of
`Integer::endian_parse`: the range get and the `try_into`). -/
theorem endianParse_error {w a b : Nat} {e : Bytes} {d : ElfData} {er : Error}
    (h : endianParse w a b e d = .error er) : er = .OffsetCalculationFailure := by
  unfold endianParse at h
  split at h
  · cases h; rfl
  · split at h
    · cases h
    · cases h; rfl

/-- The class-independent trailing fields never produce `BadElf`. -/
theorem restFields_ne_badElf (pos : Nat) (cls : ElfClass) (dat : ElfData)
    (abi : ElfOsAbi) (ty : ElfType) (mach : ElfMachine) (e ph sh : Nat)
    (elf : Bytes) :
    restFields pos cls dat abi ty mach e ph sh elf ≠ .error .BadElf := by
  unfold restFields
  rcases h1 : endianParse 4 pos (pos + 0x04) elf dat with er | v1
  · have h := endianParse_error h1; subst h; simp
  rcases h2 : endianParse 2 (pos + 0x04) (pos + 0x06) elf dat with er | v2
  · have h := endianParse_error h2; subst h; simp
  rcases h3 : endianParse 2 (pos + 0x06) (pos + 0x08) elf dat with er | v3
  · have h := endianParse_error h3; subst h; simp
  rcases h4 : endianParse 2 (pos + 0x08) (pos + 0x0a) elf dat with er | v4
  · have h := endianParse_error h4; subst h; simp
  rcases h5 : endianParse 2 (pos + 0x0a) (pos + 0x0c) elf dat with er | v5
  · have h := endianParse_error h5; subst h; simp
  rcases h6 : endianParse 2 (pos + 0x0c) (pos + 0x0e) elf dat with er | v6
  · have h := endianParse_error h6; subst h; simp
  rcases h7 : endianParse 2 (pos + 0x0e) (pos + 0x10) elf dat with er | v7
  · have h := endianParse_error h7; subst h; simp
  simp

/-- The 32-bit class-dependent branch never produces `BadElf`. -/
theorem fileFields32_ne_badElf (cls : ElfClass) (dat : ElfData)
    (abi : ElfOsAbi) (ty : ElfType) (mach : ElfMachine) (elf : Bytes) :
    fileFields32 cls dat abi ty mach elf ≠ .error .BadElf := by
  unfold fileFields32
  rcases h1 : endianParse 4 0x18 0x1c elf dat with er | v1
  · have h := endianParse_error h1; subst h; simp
  rcases h2 : endianParse 4 0x1c 0x20 elf dat with er | v2
  · have h := endianParse_error h2; subst h; simp
  rcases h3 : endianParse 4 0x20 0x24 elf dat with er | v3
  · have h := endianParse_error h3; subst h; simp
  simpa using restFields_ne_badElf 0x24 cls dat abi ty mach v1 v2 v3 elf

/-- The 64-bit/unknown class-dependent branch never produces `BadElf`. -/
theorem fileFields64_ne_badElf (cls : ElfClass) (dat : ElfData)
    (abi : ElfOsAbi) (ty : ElfType) (mach : ElfMachine) (elf : Bytes) :
    fileFields64 cls dat abi ty mach elf ≠ .error .BadElf := by
  unfold fileFields64
  rcases h1 : endianParse 8 0x18 0x20 elf dat with er | v1
  · have h := endianParse_error h1; subst h; simp
  rcases h2 : endianParse 8 0x20 0x28 elf dat with er | v2
  · have h := endianParse_error h2; subst h; simp
  rcases h3 : endianParse 8 0x28 0x30 elf dat with er | v3
  · have h := endianParse_error h3; subst h; simp
  simpa using restFields_ne_badElf 0x30 cls dat abi ty mach v1 v2 v3 elf

/-- The class-dependent tail of `FileHeader::parse` never produces
`BadElf`. -/
theorem fileFields_ne_badElf (cls : ElfClass) (dat : ElfData)
    (abi : ElfOsAbi) (ty : ElfType) (mach : ElfMachine) (elf : Bytes) :
    fileFields cls dat abi ty mach elf ≠ .error .BadElf := by
  unfold fileFields
  cases cls with
  | Class32 => exact fileFields32_ne_badElf .Class32 dat abi ty mach elf
  | Class64 => exact fileFields64_ne_badElf .Class64 dat abi ty mach elf
  | None => exact fileFields64_ne_badElf .None dat abi ty mach elf

/-- C4: `FileHeader::parse` returns `BadElf` exactly when the magic check,
the byte-6 version check, or the bytes-20-23 version check fails (a
buffer too short for the checked bytes counts as failing that check); no
other input condition produces `BadElf` — the field reads can only fail
with `OffsetCalculationFailure`. The missing-OS-ABI-byte `BadElf` return
(`src/file.rs` line 165) is covered: a buffer of length ≤ 7 also lacks
bytes 20-23. -/
theorem c4_badElf_iff (elf : Bytes) :
    FileHeader.parse elf = .error .BadElf ↔
      (listGet? elf 0x00 0x04 ≠ some elfMagic ∨ elf[0x06]? ≠ some 1 ∨
        listGet? elf 0x14 0x18 ≠ some [0x01, 0x00, 0x00, 0x00]) := by
  unfold FileHeader.parse parseHead
  by_cases h1 : listGet? elf 0x00 0x04 = some elfMagic
  · by_cases h2 : elf[0x06]? = some 1
    · cases h7 : elf[0x07]? with
      | none =>
        have hlen : elf.length ≤ 7 := by
          by_contra hc
          push_neg at hc
          exact absurd h7 (by simp [List.getElem?_eq_none_iff]; omega)
        have h3 : listGet? elf 0x14 0x18 = none := by
          unfold listGet?
          rw [if_neg]
          omega
        simp [h1, h2, h3]
      | some ab =>
        by_cases h3 : listGet? elf 0x14 0x18 = some [0x01, 0x00, 0x00, 0x00]
        · simp [h1, h2, h3, fileFields_ne_badElf]
        · simp [h1, h2, h3]
    · simp [h1, h2]
  · simp [h1]

/-- C1: all three iterator `next` implementations panic (out-of-bounds
slice index, modelled as `Step.crash`) instead of returning `None` or an
error — here at a table offset of 0 with entry size 1 over an empty
buffer (program and section iterators), and at a section window
`sh_offset = 0, sh_size = 1` over an empty buffer (symbol-table
iterator). -/
theorem c1_next_crashes_on_oob :
    (ProgramIterator.new 0 1 1 .Class64 .ElfData2Lsb []).next = .crash ∧
    (SectionIterator.new 0 1 1 .Class64 .ElfData2Lsb []).next = .crash ∧
    (SymTabIterator.new (some { SectionHeader.init with sh_size := 1 })
      .Class64 .ElfData2Lsb []).next = .crash :=
  ⟨rfl, rfl, rfl⟩

/-- C2: over a table declared to hold `N = 2` entries whose buffer ends
after the first 56-byte entry, the program-header iterator yields the
first entry and then panics on the second call (`Step.crash`) instead of
yielding fewer than `N` items and then `None`. -/
theorem c2_truncated_table_crashes :
    truncIter0.next = .yield truncIter1 phNull64 ∧
    truncIter1.next = .crash ∧
    progCollect 2 truncIter0 = [phNull64] :=
  ⟨rfl, rfl, rfl⟩

/-- C10: `ProgramHeader::parse` under class `None` (unknown) always
succeeds — on any slice, the empty one included, and under any byte
order — and only the segment-type field changes: flags, offset, virtual
and physical address, file size, memory size and alignment all keep
their `ProgramHeader::new` defaults (zeroes and all-false permissions). -/
theorem c10_unknown_class_frame (elf : Bytes) (dat : ElfData) :
    ProgramHeader.new.parse elf .None dat =
      .ok { p_type := programTypeOf elf,
            p_flags := { r := false, w := false, x := false },
            p_offset := 0, p_vaddr := 0, p_paddr := 0,
            p_filesz := 0, p_memsz := 0, p_align := 0 } := rfl

/-- C7: for both the program-header and the section-header iterator, a
failing per-entry parse of the next entry (any decode error — e.g. an
entry size smaller than the class layout needs, so that a field read runs
past the entry slice) makes `next` return `None` (`Step.done`): the
failure silently ends the sequence instead of surfacing as an error. The
Rust `.ok()?` also leaves the iterator state unchanged, so every later
call repeats the same failing parse and yields nothing further. -/
theorem c7_parse_failure_ends_iteration :
    (∀ (s : ProgramIterator) (sub : Bytes) (er : Error),
      s.phnum ≠ 0 →
      listGet? s.elf s.offset (s.offset + s.phentsize) = some sub →
      s.program_header.parse sub s.e_class s.e_data = .error er →
      s.next = .done)
    ∧ (∀ (s : SectionIterator) (sub : Bytes) (er : Error),
      s.shnum ≠ 0 →
      listGet? s.elf s.offset (s.offset + s.shentsize) = some sub →
      s.section_header.parse sub s.e_class s.e_data = .error er →
      s.next = .done) := by
  constructor
  · intro s sub er hn hget hparse
    unfold ProgramIterator.next
    simp [hn, hget, hparse]
  · intro s sub er hn hget hparse
    unfold SectionIterator.next
    simp [hn, hget, hparse]

/-- Witness for C7: 4-byte buffers whose single declared entry is too
short for the 64-bit layouts — both parses fail with
`OffsetCalculationFailure` and both `next` calls return `None`. -/
theorem c7_parse_failure_ends_iteration_witness :
    (ProgramIterator.new 0 4 1 .Class64 .ElfData2Lsb [0, 0, 0, 0]).next = .done ∧
    (SectionIterator.new 0 4 1 .Class64 .ElfData2Lsb [0, 0, 0, 0]).next = .done :=
  ⟨c7_parse_failure_ends_iteration.1 _ [0, 0, 0, 0] .OffsetCalculationFailure
      (by decide) (by decide) (by decide),
   c7_parse_failure_ends_iteration.2 _ [0, 0, 0, 0] .OffsetCalculationFailure
      (by decide) (by decide) (by decide)⟩

/-- A yielded section header carries the iterator's current ordinal, and
the successor state's ordinal is one larger (`src/section/mod.rs` lines
311-313). -/
theorem secNext_yield {s s' : SectionIterator} {a : SectionHeader}
    (h : s.next = .yield s' a) : a.sh_ndx = s.ndx ∧ s'.ndx = s.ndx + 1 := by
  unfold SectionIterator.next at h
  split at h
  · cases h
  · split at h
    · cases h
    · split at h
      · cases h
      · cases h
        constructor <;> rfl

/-- The `i`-th item collected from a section iterator carries ordinal
`s.ndx + i`. -/
theorem secCollect_ndx (n : Nat) (s : SectionIterator) (i : Nat)
    (sh : SectionHeader) (h : (secCollect n s)[i]? = some sh) :
    sh.sh_ndx = s.ndx + i := by
  induction n generalizing s i with
  | zero => simp [secCollect] at h
  | succ n ih =>
    revert h
    unfold secCollect
    cases hnext : s.next with
    | done => intro h; simp at h
    | crash => intro h; simp at h
    | yield s' a =>
      intro h
      cases i with
      | zero =>
        simp only [List.getElem?_cons_zero, Option.some.injEq] at h
        rw [← h]
        simpa using (secNext_yield hnext).1
      | succ i =>
        simp only [List.getElem?_cons_succ] at h
        have := ih s' i h
        rw [this, (secNext_yield hnext).2]
        omega

/-- C8: for every configuration of the section-header iterator and every
buffer, the `i`-th yielded `SectionHeader` (counting from zero in
traversal order, over any number of `next` calls) has `sh_ndx = i`,
whatever the on-disk bytes contain. -/
theorem c8_section_ordinals (shoff entsz num : Nat) (cls : ElfClass)
    (dat : ElfData) (elf : Bytes) (n i : Nat) (sh : SectionHeader)
    (h : (secCollect n (SectionIterator.new shoff entsz num cls dat elf))[i]? = some sh) :
    sh.sh_ndx = i := by
  have := secCollect_ndx n (SectionIterator.new shoff entsz num cls dat elf) i sh h
  simpa [SectionIterator.new] using this

/-- Witness for C8: one all-zero 64-byte section entry; the first yielded
header is the zero header tagged `ShtNull` with ordinal 0. -/
theorem c8_section_ordinals_witness :
    (secCollect 1 (SectionIterator.new 0 64 1 .Class64 .ElfData2Lsb
      (List.replicate 64 0)))[0]? =
        some { SectionHeader.init with sh_type := .ShtNull } ∧
    ({ SectionHeader.init with sh_type := SectionType.ShtNull } : SectionHeader).sh_ndx = 0 :=
  ⟨by decide, c8_section_ordinals 0 64 1 .Class64 .ElfData2Lsb
    (List.replicate 64 0) 1 0 _ (by decide)⟩

/-- Off the 32-bit class, the monolithic and the modular class-dependent
field blocks read identical ranges at identical widths (`libStep` is 8
for `Class64`/`None`, matching the modular 64-bit branch). -/
theorem fields_agree (cls : ElfClass) (hcls : cls ≠ .Class32)
    (dat : ElfData) (abi : ElfOsAbi) (ty : ElfType) (mach : ElfMachine)
    (elf : Bytes) :
    elfFields cls dat abi ty mach elf = fileFields cls dat abi ty mach elf := by
  cases cls with
  | Class32 => exact absurd rfl hcls
  | Class64 => rfl
  | None => rfl

/-- The shared parser head is a congruence: two tails that agree at the
decoded class/data/abi/type/machine give equal parses. -/
theorem parseHead_congr (elf : Bytes)
    (k1 k2 : ElfClass → ElfData → ElfOsAbi → ElfType → ElfMachine → Bytes →
      Except Error FileHeader)
    (hk : ∀ ab, k1 (elfClassOf elf) (elfDataOf elf) (elfAbiOf ab)
      (elfTypeOf elf) (elfMachineOf elf) elf =
        k2 (elfClassOf elf) (elfDataOf elf) (elfAbiOf ab)
          (elfTypeOf elf) (elfMachineOf elf) elf) :
    parseHead elf k1 = parseHead elf k2 := by
  unfold parseHead
  by_cases h1 : listGet? elf 0x00 0x04 = some elfMagic
  · by_cases h2 : elf[0x06]? = some 1
    · cases h7 : elf[0x07]? with
      | none => simp [h1, h2]
      | some ab =>
        by_cases h3 : listGet? elf 0x14 0x18 = some [0x01, 0x00, 0x00, 0x00]
        · simp [h1, h2, h3, hk ab]
        · simp [h1, h2, h3]
    · simp [h1, h2]
  · simp [h1]

/-- C9 (amended): the monolithic `Elf::parse` of `src/lib.rs` and the
modular `FileHeader::parse` of `src/file.rs` agree — same error or same
field-for-field header — on every buffer whose class byte is not 1
(64-bit, unknown, or absent class). On 32-bit-class inputs they diverge:
see the counterexample, `Elf::parse` feeds a 4-byte range to the 8-byte
`usize::endian_parse`, which always fails. -/
theorem c9_parsers_agree_off_class32 (elf : Bytes)
    (h : elf[0x04]? ≠ some 1) :
    Elf.parse elf = FileHeader.parse elf := by
  unfold Elf.parse FileHeader.parse
  apply parseHead_congr
  intro ab
  apply fields_agree
  unfold elfClassOf
  rw [if_neg h]
  split <;> simp

/-- Counterexample to C9 as stated: on the well-formed 32-bit header
`elf32le`, the modular parser succeeds with `hdr32le` while the
monolithic parser fails with `OffsetCalculationFailure` — neither "both
error" nor "both succeed with equal fields" holds, and the input is
exactly a 32-bit-class buffer, on which the claim asserts agreement. -/
theorem c9_class32_disagreement :
    FileHeader.parse elf32le = .ok hdr32le ∧
    Elf.parse elf32le = .error .OffsetCalculationFailure ∧
    elf32le[0x04]? = some 1 := ⟨by decide, by decide, by decide⟩

/-- Witness for the amended C9 at the 64-bit header `elf64le`. -/
theorem c9_parsers_agree_off_class32_witness :
    (elf64le[0x04]? ≠ some 1) ∧ Elf.parse elf64le = FileHeader.parse elf64le :=
  ⟨by decide, c9_parsers_agree_off_class32 elf64le (by decide)⟩

/-- The value produced by a successful primitive decode is the big-endian
value of the extracted range under `ElfData2Msb` and the little-endian
value otherwise. -/
theorem endianParse_ok {w a b : Nat} {e : Bytes} {d : ElfData} {v : Nat}
    (h : endianParse w a b e d = .ok v) :
    v = (if d = .ElfData2Msb then beVal ((e.drop a).take (b - a))
         else leVal ((e.drop a).take (b - a))) := by
  unfold endianParse at h
  split at h
  · cases h
  · next s heq =>
    split at h
    · unfold listGet? at heq
      split at heq
      · cases heq
        cases h
        cases d <;> simp
      · cases heq
    · cases h

/-- A successful common tail keeps the entry point, type and machine it
was handed. -/
theorem restFields_ok {pos : Nat} {cls : ElfClass} {dat : ElfData}
    {abi : ElfOsAbi} {ty : ElfType} {mach : ElfMachine} {e ph sh : Nat}
    {elf : Bytes} {h : FileHeader}
    (hok : restFields pos cls dat abi ty mach e ph sh elf = .ok h) :
    h.e_entry = e ∧ h.e_type = ty ∧ h.e_machine = mach := by
  unfold restFields at hok
  split at hok
  · cases hok
  split at hok
  · cases hok
  split at hok
  · cases hok
  split at hok
  · cases hok
  split at hok
  · cases hok
  split at hok
  · cases hok
  split at hok
  · cases hok
  cases hok
  exact ⟨rfl, rfl, rfl⟩

/-- A successful parse ran its class-dependent tail at the decoded
class, data, ABI, type and machine. -/
theorem parseHead_ok {elf : Bytes}
    {k : ElfClass → ElfData → ElfOsAbi → ElfType → ElfMachine → Bytes →
      Except Error FileHeader} {h : FileHeader}
    (hok : parseHead elf k = .ok h) :
    ∃ ab, elf[0x07]? = some ab ∧
      k (elfClassOf elf) (elfDataOf elf) (elfAbiOf ab) (elfTypeOf elf)
        (elfMachineOf elf) elf = .ok h := by
  unfold parseHead at hok
  split at hok
  · split at hok
    · split at hok
      · cases hok
      · next ab h7 =>
        split at hok
        · exact ⟨ab, h7, hok⟩
        · cases hok
    · cases hok
  · cases hok

/-- A successful 64-bit branch decoded its entry point through the
8-byte primitive read at bytes 24-31. -/
theorem fileFields64_ok {cls : ElfClass} {dat : ElfData} {abi : ElfOsAbi}
    {ty : ElfType} {mach : ElfMachine} {elf : Bytes} {h : FileHeader}
    (hok : fileFields64 cls dat abi ty mach elf = .ok h) :
    ∃ e, endianParse 8 0x18 0x20 elf dat = .ok e ∧
      h.e_entry = e ∧ h.e_type = ty ∧ h.e_machine = mach := by
  unfold fileFields64 at hok
  split at hok
  · cases hok
  next e he =>
  split at hok
  · cases hok
  split at hok
  · cases hok
  exact ⟨e, he, restFields_ok hok⟩

/-- A big-endian decode selector means byte 5 was exactly 2. -/
theorem elfDataOf_msb {elf : Bytes} (h : elfDataOf elf = .ElfData2Msb) :
    elf[0x05]? = some 2 := by
  unfold elfDataOf at h
  split at h
  · cases h
  · split at h
    · assumption
    · cases h

/-- C5 (amended): on 64-bit-class buffers, fields decoded through the
endian-aware primitive reader follow the byte-order selector — the entry
point is the big-endian value of bytes 24-31 when byte 5 is 2, and the
little-endian value for selector 1 or any unrecognized selector — but
the object-type and machine fields are *not* endian-decoded: they are
matched against fixed (little-endian-shaped) byte patterns via
`elfTypeOf`/`elfMachineOf`, the same functions whatever the selector
says, so a big-endian-encoded type or machine value falls through to
`None`/`UnDefined` (see the counterexample). -/
theorem c5_endian_decoding_amended :
    (∀ (elf : Bytes) (h : FileHeader),
      elf[0x04]? = some 2 → elf[0x05]? = some 2 →
      FileHeader.parse elf = .ok h →
      h.e_entry = beVal ((elf.drop 0x18).take 8) ∧
      h.e_type = elfTypeOf elf ∧ h.e_machine = elfMachineOf elf)
    ∧ (∀ (elf : Bytes) (h : FileHeader),
      elf[0x04]? = some 2 → elf[0x05]? ≠ some 2 →
      FileHeader.parse elf = .ok h →
      h.e_entry = leVal ((elf.drop 0x18).take 8) ∧
      h.e_type = elfTypeOf elf ∧ h.e_machine = elfMachineOf elf) := by
  have hcls : ∀ (elf : Bytes), elf[0x04]? = some 2 → elfClassOf elf = .Class64 := by
    intro elf h4
    unfold elfClassOf
    rw [if_neg (by simp [h4]), if_pos h4]
  constructor
  · intro elf h h4 h5 hok
    unfold FileHeader.parse at hok
    obtain ⟨ab, h7, hk⟩ := parseHead_ok hok
    rw [hcls elf h4] at hk
    unfold fileFields at hk
    obtain ⟨e, he, hent, hty, hmach⟩ := fileFields64_ok hk
    have hdat : elfDataOf elf = .ElfData2Msb := by
      unfold elfDataOf
      rw [if_neg (by simp [h5]), if_pos h5]
    have hv := endianParse_ok he
    rw [hdat] at hv
    simp at hv
    refine ⟨?_, hty, hmach⟩
    rw [hent, hv]
  · intro elf h h4 h5 hok
    unfold FileHeader.parse at hok
    obtain ⟨ab, h7, hk⟩ := parseHead_ok hok
    rw [hcls elf h4] at hk
    unfold fileFields at hk
    obtain ⟨e, he, hent, hty, hmach⟩ := fileFields64_ok hk
    have hv := endianParse_ok he
    refine ⟨?_, hty, hmach⟩
    rw [hent, hv, if_neg (fun hc => h5 (elfDataOf_msb hc))]

/-- Counterexample to C5 as stated: `elf64be` has byte-order selector 2
and carries the object type 2 and machine 0x3e big-endian at bytes 16-19
(`[0x00, 0x02]` and `[0x00, 0x3e]`); decoding those fields big-endian,
as the claim demands for every multi-byte field, would give
`Executable` and `Amd64`, but the decoder returns `None` and
`UnDefined`: the fields are matched as raw byte patterns, never through
the byte-order selector. The entry point, by contrast, does decode
big-endian to the marker `0x0102030405060708`. -/
theorem c5_type_machine_not_endian_decoded :
    elf64be[0x05]? = some 2 ∧
    FileHeader.parse elf64be = .ok hdr64be ∧
    hdr64be.e_type = ElfType.None ∧
    hdr64be.e_machine = ElfMachine.UnDefined ∧
    hdr64be.e_entry = 0x0102030405060708 ∧
    beVal [0x00, 0x02] = 2 ∧ beVal [0x00, 0x3e] = 0x3e := by decide

/-- Witness for the amended C5 at the big-endian marker header
`elf64be`. -/
theorem c5_endian_decoding_amended_witness :
    hdr64be.e_entry = beVal ((elf64be.drop 0x18).take 8) ∧
    hdr64be.e_type = elfTypeOf elf64be ∧
    hdr64be.e_machine = elfMachineOf elf64be :=
  c5_endian_decoding_amended.1 elf64be hdr64be (by decide) (by decide) (by decide)

/-- C6: a logical symbol record `(name, value, size, info, other, shndx)`
whose value and size fit in 32 bits decodes identically from its ELF32
encoding `{name, value, size, info, other, shndx}` under class 32-bit and
from its ELF64 encoding `{name, info, other, shndx, value, size}` under
class 64-bit: both parses succeed with the same `SymTabEnt`,
field for field, despite the different field positions and widths. -/
theorem c6_sym_layouts_agree (nm v sz info oth ndx : Nat)
    (hnm : nm < 4294967296) (hv : v < 4294967296) (hsz : sz < 4294967296)
    (hndx : ndx < 65536) :
    SymTabEnt.init.parse (encodeSym32 nm v sz info oth ndx) .Class32 .ElfData2Lsb =
      .ok { st_name := nm, st_value := v, st_size := sz,
            st_info := symTypeOf info, st_other := oth, st_shndx := ndx } ∧
    SymTabEnt.init.parse (encodeSym64 nm v sz info oth ndx) .Class64 .ElfData2Lsb =
      .ok { st_name := nm, st_value := v, st_size := sz,
            st_info := symTypeOf info, st_other := oth, st_shndx := ndx } := by
  constructor <;>
    simp [SymTabEnt.parse, encodeSym32, encodeSym64, endianParse, u8EndianParse,
      u64EndianParse, listGet?, leVal, SymTabEnt.init] <;>
    omega

/-- Witness for C6 at the record
`(name 7, value 0x11223344, size 9, info 2 = Func, other 0, shndx 5)`. -/
theorem c6_sym_layouts_agree_witness :
    SymTabEnt.init.parse (encodeSym32 7 0x11223344 9 2 0 5) .Class32 .ElfData2Lsb =
      .ok { st_name := 7, st_value := 0x11223344, st_size := 9,
            st_info := symTypeOf 2, st_other := 0, st_shndx := 5 } ∧
    SymTabEnt.init.parse (encodeSym64 7 0x11223344 9 2 0 5) .Class64 .ElfData2Lsb =
      .ok { st_name := 7, st_value := 0x11223344, st_size := 9,
            st_info := symTypeOf 2, st_other := 0, st_shndx := 5 } :=
  c6_sym_layouts_agree 7 0x11223344 9 2 0 5
    (by decide) (by decide) (by decide) (by decide)

/-- A yielded symbol entry keeps the attached section and bumps the
cursor, and can only fire while the requested entry offset
`symnum * sh_entsize` is inside the section slice. -/
theorem symNext_yield {s s' : SymTabIterator} {a : SymTabEnt}
    (h : s.next = .yield s' a) :
    s'.sh = s.sh ∧ s'.symnum = s.symnum + 1 ∧
      ∀ sh, s.sh = some sh → s.symnum * sh.sh_entsize ≤ sh.sh_size := by
  unfold SymTabIterator.next at h
  split at h
  · cases h
  next symtab hsh =>
  split at h
  · cases h
  next sec hsec =>
  split at h
  · cases h
  next tail htail =>
  split at h
  · cases h
  next ent hparse =>
  cases h
  refine ⟨rfl, rfl, ?_⟩
  intro sh hsh2
  rw [hsh] at hsh2
  have hinj : symtab = sh := by injection hsh2
  rw [← hinj]
  have hlen : sec.length ≤ symtab.sh_size := by
    unfold listGet? at hsec
    split at hsec
    · cases hsec
      simp [List.length_take, List.length_drop]
    · cases hsec
  unfold listDrop? at htail
  split at htail
  · omega
  · cases htail

/-- With a positive entry size, the number of symbol entries any run can
yield is bounded: each yield needs `symnum * sh_entsize ≤ sh_size` and
`symnum` strictly increases. -/
theorem symCollect_len_le (n : Nat) (s : SymTabIterator) (sh : SectionHeader)
    (hs : s.sh = some sh) (hent : 0 < sh.sh_entsize) :
    (symCollect n s).length ≤ sh.sh_size / sh.sh_entsize + 1 - s.symnum := by
  induction n generalizing s with
  | zero => simp [symCollect]
  | succ n ih =>
    unfold symCollect
    cases hnext : s.next with
    | done => simp
    | crash => simp
    | yield s' a =>
      obtain ⟨h1, h5, h6⟩ := symNext_yield hnext
      have hb := h6 sh hs
      have hle : s.symnum ≤ sh.sh_size / sh.sh_entsize :=
        (Nat.le_div_iff_mul_le hent).mpr hb
      have hrec := ih s' (h1.trans hs)
      rw [h5] at hrec
      simp only [List.length_cons]
      omega

/-- C3 (amended): for every section header with *positive* `sh_entsize`,
every class, byte order and buffer, the symbol-table iterator yields only
finitely many entries — at most `sh_size / sh_entsize + 1`, over any
number of `next` calls: it continues while the requested entry offset
stays inside the section slice and otherwise stops. The claim's "any
sh_entsize" fails: with `sh_entsize = 0` the requested offset
`symnum * 0` never advances, and a decodable window is re-yielded forever
(see the counterexample). -/
theorem c3_symtab_iteration_bounded (sh : SectionHeader) (cls : ElfClass)
    (dat : ElfData) (elf : Bytes) (hent : 0 < sh.sh_entsize) (n : Nat) :
    (symCollect n (SymTabIterator.new (some sh) cls dat elf)).length ≤
      sh.sh_size / sh.sh_entsize + 1 := by
  have := symCollect_len_le n (SymTabIterator.new (some sh) cls dat elf) sh rfl hent
  simpa [SymTabIterator.new] using this

/-- A symbol iterator whose section has `sh_entsize = 0` and a decodable
in-bounds window yields on every call, leaving everything but the cursor
unchanged. -/
theorem symNext_entsize_zero {s : SymTabIterator} {sh : SectionHeader}
    {sec : Bytes} {ent : SymTabEnt}
    (hs : s.sh = some sh) (hent : sh.sh_entsize = 0)
    (hsec : listGet? s.elf sh.sh_offset (sh.sh_offset + sh.sh_size) = some sec)
    (hparse : SymTabEnt.init.parse sec s.e_class s.e_data = .ok ent) :
    s.next = .yield { s with symnum := s.symnum + 1 } ent := by
  unfold SymTabIterator.next
  simp [hs, hsec, hent, hparse, listDrop?]

/-- Every step of `symZeroEnt` (entry size zero) yields, whatever the
cursor value. -/
theorem symZero_step (k : Nat) :
    ({ symZeroEnt with symnum := k }).next =
      .yield { symZeroEnt with symnum := k + 1 } SymTabEnt.init := by
  have := @symNext_entsize_zero { symZeroEnt with symnum := k }
    { SectionHeader.init with sh_size := 24 }
    (List.replicate 24 0) SymTabEnt.init rfl rfl rfl rfl
  simpa using this

/-- A run of `n` calls over `symZeroEnt` yields exactly `n` entries. -/
theorem symZero_collect_len (n : Nat) : ∀ k,
    (symCollect n { symZeroEnt with symnum := k }).length = n := by
  induction n with
  | zero => intro k; rfl
  | succ n ih =>
    intro k
    unfold symCollect
    rw [symZero_step k]
    simp [ih (k + 1)]

/-- Counterexample to C3 as stated: the iterator `symZeroEnt` — section
header with `sh_offset = 0, sh_size = 24, sh_entsize = 0` over a 24-byte
buffer, a configuration the claim covers ("any sh_entsize") — yields
unboundedly many entries: no finite bound covers every run, since `n`
calls yield `n` entries. -/
theorem c3_entsize_zero_unbounded :
    ¬ ∃ B : Nat, ∀ n : Nat, (symCollect n symZeroEnt).length ≤ B := by
  rintro ⟨B, hB⟩
  have h := hB (B + 1)
  have hlen : (symCollect (B + 1) symZeroEnt).length = B + 1 :=
    symZero_collect_len (B + 1) 0
  omega

/-- Witness for the amended C3: a 24-byte section with 24-byte entries
yields exactly one entry over five calls, within the bound `24/24 + 1`. -/
theorem c3_symtab_iteration_bounded_witness :
    0 < ({ SectionHeader.init with sh_size := 24, sh_entsize := 24 } : SectionHeader).sh_entsize ∧
    (symCollect 5 (SymTabIterator.new
      (some { SectionHeader.init with sh_size := 24, sh_entsize := 24 })
      .Class64 .ElfData2Lsb (List.replicate 24 0))).length ≤ 2 :=
  ⟨by decide,
   c3_symtab_iteration_bounded { SectionHeader.init with sh_size := 24, sh_entsize := 24 }
     .Class64 .ElfData2Lsb (List.replicate 24 0) (by decide) 5⟩
